import Mathlib

/-!
Shallow embedding of the decode/execute core of the mos6502_emulator
repository (a MOS 6502 emulator plus a CHIP-8 interpreter), together with
theorems settling the spec claims about it.

Machine integers are modelled as Nat with explicit reductions: a u8 value
is kept below 256 and a u16 value below 65536 by taking `% 256` and
`% 65536` exactly where the Rust code wraps.  Rust's unchecked `+` on u16
(which is an overflow error rather than a silent wrap) is modelled as a
checked addition returning Option.
-/

/-- Bit test used by the bit_is_set macro at place 7: `((v >> 7) & 1) == 1`
(cpu/mos6502/operations/mod.rs). -/
def bitIsSet7 (v : Nat) : Bool := (v >>> 7) &&& 1 == 1

/-- The `Operand<u8>` wrapper of cpu/mos6502/operations/mod.rs: a value
together with the carry/negative/zero flags produced while computing it.
Field order matters: the Rust struct derives PartialOrd/Ord, which compares
the fields lexicographically in declaration order (carry, negative, zero,
inner). -/
structure Operand where
  carry : Bool
  negative : Bool
  zero : Bool
  inner : Nat
deriving Repr, DecidableEq

/-- `Operand::new`: carry false, negative = bit 7 of the value, zero =
(value == 0). -/
def Operand.new (inner : Nat) : Operand :=
  ⟨false, bitIsSet7 inner, inner == 0, inner⟩

/-- The `impl Add for Operand<u8>`: `overflowing_add`, so the sum wraps at
256 and the carry flag records whether the unsigned sum reached 256.  Note
that no carry-in participates in this sum. -/
def Operand.addOp (a b : Operand) : Operand :=
  { carry := decide (256 ≤ a.inner + b.inner)
    negative := bitIsSet7 ((a.inner + b.inner) % 256)
    zero := (a.inner + b.inner) % 256 == 0
    inner := (a.inner + b.inner) % 256 }

/-- The `impl Sub for Operand<u8>`: `overflowing_sub`, wrapping difference
with the carry flag recording underflow. -/
def Operand.subOp (a b : Operand) : Operand :=
  { carry := decide (a.inner < b.inner)
    negative := bitIsSet7 ((a.inner + (256 - b.inner % 256)) % 256)
    zero := (a.inner + (256 - b.inner % 256)) % 256 == 0
    inner := (a.inner + (256 - b.inner % 256)) % 256 }

/-- `twos_complement_add` from cpu/mos6502/operations/mod.rs: the sum is
`self + other` (the carry argument is NOT added), and the reported overflow
is `(!lhs7 && !rhs7 && carry) || (lhs7 && rhs7 && !carry)` where `carry` is
the incoming carry argument. -/
def twosComplementAdd (a b : Operand) (carry : Bool) : Operand × Bool :=
  (a.addOp b,
    (!bitIsSet7 a.inner && !bitIsSet7 b.inner && carry)
      || (bitIsSet7 a.inner && bitIsSet7 b.inner && !carry))

/-- The comparison the CMP/CPX/CPY generators perform as `lhs >= rhs`:
the derived lexicographic order of the Rust `Operand` struct, comparing
carry, then negative, then zero, then the wrapped value, with
false < true on the Bool fields. -/
def Operand.lexGe (a b : Operand) : Bool :=
  if a.carry != b.carry then a.carry
  else if a.negative != b.negative then a.negative
  else if a.zero != b.zero then a.zero
  else decide (b.inner ≤ a.inner)

/-- The 6502 byte registers (cpu/mos6502/register.rs is referenced by the
operations module; only the registers the claims touch are carried). -/
inductive ByteReg
  | acc
  | x
  | y
  | sp
deriving Repr, DecidableEq

/-- The single 6502 word register. -/
inductive WordReg
  | pc
deriving Repr, DecidableEq

/-- The 6502 processor-status flags. -/
inductive PsFlag
  | carry
  | zero
  | interrupt
  | decimal
  | brk
  | overflow
  | negative
deriving Repr, DecidableEq

/-- The processor-status register as a record of its seven flags. -/
structure Flags where
  carry : Bool := false
  zero : Bool := false
  interrupt : Bool := false
  decimal : Bool := false
  brk : Bool := false
  overflow : Bool := false
  negative : Bool := false
deriving Repr, DecidableEq

/-- The 6502 CPU state exposed to generators: byte registers, the program
counter, the status flags, and the address space as a byte-valued function. -/
structure CpuState where
  acc : Nat := 0
  x : Nat := 0
  y : Nat := 0
  sp : Nat := 0
  pc : Nat := 0
  flags : Flags := {}
  mem : Nat → Nat := fun _ => 0

/-- The 6502 microcode tag set from cpu/mos6502/microcode.rs, extended with
the SetFlag mutation that the generators emit through
gen_flag_set_microcode (spec §3 item 8). -/
inductive Microcode
  | writeMemory (addr : Nat) (val : Nat)
  | write8 (r : ByteReg) (v : Nat)
  | inc8 (r : ByteReg) (v : Nat)
  | dec8 (r : ByteReg) (v : Nat)
  | write16 (r : WordReg) (v : Nat)
  | inc16 (r : WordReg) (v : Nat)
  | dec16 (r : WordReg) (v : Nat)
  | setFlag (f : PsFlag) (v : Bool)
deriving Repr, DecidableEq

/-- Read a byte register from the state. -/
def CpuState.getByte (s : CpuState) (r : ByteReg) : Nat :=
  match r with
  | .acc => s.acc
  | .x => s.x
  | .y => s.y
  | .sp => s.sp

/-- Write a byte register of the state. -/
def CpuState.setByte (s : CpuState) (r : ByteReg) (v : Nat) : CpuState :=
  match r with
  | .acc => { s with acc := v }
  | .x => { s with x := v }
  | .y => { s with y := v }
  | .sp => { s with sp := v }

/-- Write one flag of the status record. -/
def Flags.set (fs : Flags) (f : PsFlag) (v : Bool) : Flags :=
  match f with
  | .carry => { fs with carry := v }
  | .zero => { fs with zero := v }
  | .interrupt => { fs with interrupt := v }
  | .decimal => { fs with decimal := v }
  | .brk => { fs with brk := v }
  | .overflow => { fs with overflow := v }
  | .negative => { fs with negative := v }

/-- Modelled from the spec: application of one microcode (§4.2; the
applying code lives in cpu/mos6502/mod.rs which is not under src/).  Every
register mutation wraps at the register width; SetFlag edits one bit of the
status register; WriteMemory stores the byte in the address space. -/
def applyMicrocode (s : CpuState) (m : Microcode) : CpuState :=
  match m with
  | .writeMemory a v =>
      { s with mem := fun j => if j = a % 65536 then v % 256 else s.mem j }
  | .write8 r v => s.setByte r (v % 256)
  | .inc8 r v => s.setByte r ((s.getByte r + v) % 256)
  | .dec8 r v => s.setByte r ((s.getByte r + (256 - v % 256)) % 256)
  | .write16 _ v => { s with pc := v % 65536 }
  | .inc16 _ v => { s with pc := (s.pc + v) % 65536 }
  | .dec16 _ v => { s with pc := (s.pc + (65536 - v % 65536)) % 65536 }
  | .setFlag f v => { s with flags := s.flags.set f v }

/-- `MOps` from cpu/mos6502/operations/mod.rs: byte offset, final cycle
count, microcode list. -/
structure MOps where
  offset : Nat
  cycles : Nat
  microcode : List Microcode
deriving Repr, DecidableEq

/-- The flattening `From<MOps> for Vec<Vec<Microcode>>`: the emitted
microcode is followed by one trailing PC increment by the instruction byte
length. -/
def MOps.flatten (m : MOps) : List Microcode :=
  m.microcode ++ [Microcode.inc16 .pc m.offset]

/-- Modelled from the spec: one 6502 execution step for an already decoded
operation (§4.6; the stepping loop lives in cpu/mos6502/mod.rs which is not
under src/).  The generator observes the pre-step state (PC still at the
opcode), and its microcode runs in order followed by the trailing PC
advance of MOps.flatten. -/
def runOperation (s : CpuState) (m : MOps) : CpuState :=
  m.flatten.foldl applyMicrocode s

/-- The ADC Immediate generator (opcode 0x69): flags from
`twos_complement_add(lhs, rhs, cpu.ps.carry)`, then the accumulator write. -/
def adcImmediate (cpu : CpuState) (am : Nat) : MOps :=
  let lhs := Operand.new cpu.acc
  let rhs := Operand.new am
  let vo := twosComplementAdd lhs rhs cpu.flags.carry
  ⟨2, 2,
    [Microcode.setFlag .carry vo.1.carry,
     Microcode.setFlag .negative vo.1.negative,
     Microcode.setFlag .overflow vo.2,
     Microcode.setFlag .zero vo.1.zero,
     Microcode.write8 .acc vo.1.inner]⟩

/-- Run one ADC Immediate instruction from a given state. -/
def runAdcImmediate (cpu : CpuState) (am : Nat) : CpuState :=
  runOperation cpu (adcImmediate cpu am)

/-- The CMP Immediate generator (opcode 0xC9): `carry = lhs >= rhs` under
the derived Operand order, and negative/zero from the wrapping difference. -/
def cmpImmediate (cpu : CpuState) (am : Nat) : MOps :=
  let rhs := Operand.new am
  let lhs := Operand.new cpu.acc
  let diff := lhs.subOp rhs
  ⟨2, 2,
    [Microcode.setFlag .carry (lhs.lexGe rhs),
     Microcode.setFlag .negative diff.negative,
     Microcode.setFlag .zero diff.zero]⟩

/-- Run one CMP Immediate instruction from a given state. -/
def runCmpImmediate (cpu : CpuState) (am : Nat) : CpuState :=
  runOperation cpu (cmpImmediate cpu am)

/-- The cast `branch_offset as u16` of an i8 held as its byte encoding:
values at least 128 sign-extend into the high byte. -/
def signExtendI8 (b : Nat) : Nat :=
  if b % 256 < 128 then b % 256 else 0xFF00 + b % 256

/-- Lower bound of the 256-byte page of an address, from `From<u16> for
Page`: `upper = addr + (0xff - addr % 0x100)`, `lower = upper - 0xff`. -/
def pageLowerBound (addr : Nat) : Nat := addr - addr % 256

/-- `Page::contains`: the inclusive range check of the page of `addr`
against a target address. -/
def pageContains (addr target : Nat) : Bool :=
  decide (pageLowerBound addr ≤ target)
    && decide (target ≤ pageLowerBound addr + 255)

/-- `branch_on_case` from cpu/mos6502/operations/mod.rs: the branch target
is `pc + branch_offset` (wrapping, offset sign-extended), the generator
emits `PC := target - inst_offset` when the condition holds, and the cycle
penalty is 2 for a taken branch leaving the page of the current PC, 1 for a
taken branch inside it, 0 otherwise. -/
def branchOnCase (cond : Bool) (branchOffset instOffset cycles : Nat)
    (cpu : CpuState) : MOps :=
  let jmpOnEq := (cpu.pc + signExtendI8 branchOffset) % 65536
  let mc :=
    if cond then
      [Microcode.write16 .pc ((jmpOnEq + (65536 - instOffset % 65536)) % 65536)]
    else []
  let branchPenalty :=
    if cond then (if pageContains cpu.pc jmpOnEq then 1 else 2) else 0
  ⟨instOffset, cycles + branchPenalty, mc⟩

/-- The BCS generator (opcode 0xB0, Relative, byte length 2, base 2
cycles): branch when the carry flag is set. -/
def bcsRelative (cpu : CpuState) (off : Nat) : MOps :=
  branchOnCase cpu.flags.carry off 2 2 cpu

/-- Run one BCS instruction, returning the final state and the cycle
count of the step. -/
def runBcsRelative (cpu : CpuState) (off : Nat) : CpuState × Nat :=
  (runOperation cpu (bcsRelative cpu off), (bcsRelative cpu off).cycles)

/-- Rust unchecked `+` on u16: the sum when it stays below 2^16, and an
overflow error (none) otherwise. -/
def checkedAddU16 (a b : Nat) : Option Nat :=
  if a + b < 65536 then some (a + b) else none

/-- `dereference_indirect_indexed_address` from
cpu/mos6502/operations/mod.rs: the little-endian pointer read from the zero
page at base and (base+1) mod 256, then `+ index as u16` with Rust's
unchecked u16 addition. -/
def dereferenceIndirectIndexedAddress (mem : Nat → Nat) (baseAddr index : Nat) :
    Option Nat :=
  checkedAddU16
    (mem (baseAddr % 256) % 256 + 256 * (mem ((baseAddr % 256 + 1) % 256) % 256))
    (index % 256)

/-- Modelled from the spec: the IndirectYIndexed effective-address law
`EA = (pointer + Y) mod 2^16` (§4.4), stated for comparison with the
source definition above. -/
def indirectYIndexedSpecEA (mem : Nat → Nat) (baseAddr index : Nat) : Nat :=
  (mem (baseAddr % 256) % 256 + 256 * (mem ((baseAddr % 256 + 1) % 256) % 256)
    + index % 256) % 65536

/-- The formula of the spec's ADC overflow law: with
`r = (a + b + c) mod 256`, overflow holds iff
`((a ^ r) & (b ^ r) & 0x80) != 0`. -/
def adcOverflowLaw (a b : Nat) (c : Bool) : Bool :=
  ((a ^^^ ((a + b + (if c then 1 else 0)) % 256))
      &&& (b ^^^ ((a + b + (if c then 1 else 0)) % 256)) &&& 0x80) != 0

/-!  CHIP-8 decoder (cpu/chip8/operations/mod.rs). -/

/-- The decoded CHIP-8 operation variants reachable from
OpcodeVariantParser, tagged with their operand nibbles. -/
inductive Chip8Op
  | cls
  | ret
  | call (nnn : Nat)
  | jpAbs (nnn : Nat)
  | jpV0 (nnn : Nat)
  | ldAbs (nnn : Nat)
  | ldVxVy (x y : Nat)
  | ldSt (x : Nat)
  | ldDt (x : Nat)
  | ldVxDt (x : Nat)
  | ldBcd (x : Nat)
  | ldK (x : Nat)
  | addImm (x kk : Nat)
  | addI (x : Nat)
  | addVxVy (x y : Nat)
  | subnVxVy (x y : Nat)
  | andVxVy (x y : Nat)
  | orVxVy (x y : Nat)
  | shlVxVy (x y : Nat)
  | shrVxVy (x y : Nat)
  | xorVxVy (x y : Nat)
  | seVxVy (x y : Nat)
  | seImm (x kk : Nat)
  | readRegs (x : Nat)
  | storeRegs (x : Nat)
  | skp (x : Nat)
  | sknp (x : Nat)
deriving Repr, DecidableEq

/-- The OpcodeVariantParser alternation: the first variant whose nibble
mask matches the big-endian instruction word wins, in exactly the priority
order of the one_of list in cpu/chip8/operations/mod.rs (the LdBcd arm
carries the Fx18 mask of the source and sits after the sound-timer load,
and no arm exists for Rnd, Sne or Sub). -/
def chip8Decode (hi lo : Nat) : Option Chip8Op :=
  let a := hi / 16 % 16
  let x := hi % 16
  let c := lo % 256 / 16
  let d := lo % 16
  let kk := lo % 256
  let nnn := x * 256 + kk
  if hi % 256 == 0x00 && kk == 0xE0 then some .cls
  else if hi % 256 == 0x00 && kk == 0xEE then some .ret
  else if a == 0x2 then some (.call nnn)
  else if a == 0x1 then some (.jpAbs nnn)
  else if a == 0xB then some (.jpV0 nnn)
  else if a == 0xA then some (.ldAbs nnn)
  else if a == 0x8 && d == 0x0 then some (.ldVxVy x c)
  else if a == 0xF && c == 0x1 && d == 0x8 then some (.ldSt x)
  else if a == 0xF && c == 0x1 && d == 0x5 then some (.ldDt x)
  else if a == 0xF && c == 0x0 && d == 0x7 then some (.ldVxDt x)
  else if a == 0xF && c == 0x1 && d == 0x8 then some (.ldBcd x)
  else if a == 0xF && c == 0x0 && d == 0xA then some (.ldK x)
  else if a == 0x7 then some (.addImm x kk)
  else if a == 0xF && c == 0x1 && d == 0xE then some (.addI x)
  else if a == 0x8 && d == 0x4 then some (.addVxVy x c)
  else if a == 0x8 && d == 0x7 then some (.subnVxVy x c)
  else if a == 0x8 && d == 0x2 then some (.andVxVy x c)
  else if a == 0x8 && d == 0x1 then some (.orVxVy x c)
  else if a == 0x8 && d == 0xE then some (.shlVxVy x c)
  else if a == 0x8 && d == 0x6 then some (.shrVxVy x c)
  else if a == 0x8 && d == 0x3 then some (.xorVxVy x c)
  else if a == 0x5 && d == 0x0 then some (.seVxVy x c)
  else if a == 0x3 then some (.seImm x kk)
  else if a == 0xF && c == 0x6 && d == 0x5 then some (.readRegs x)
  else if a == 0xF && c == 0x5 && d == 0x5 then some (.storeRegs x)
  else if a == 0xE && c == 0x9 && d == 0xE then some (.skp x)
  else if a == 0xE && c == 0xA && d == 0x1 then some (.sknp x)
  else none

/-!  CHIP-8 execution fragment needed for CALL/RET. -/

/-- The CHIP-8 state the CALL and RET generators observe: program counter,
stack pointer and the call stack. -/
structure Chip8State where
  pc : Nat := 0
  sp : Nat := 0
  stack : Nat → Nat := fun _ => 0

/-- The CHIP-8 microcode subset CALL and RET emit. -/
inductive C8Microcode
  | pushStack (v : Nat)
  | popStack (v : Nat)
  | write16PC (v : Nat)
deriving Repr, DecidableEq

/-- Modelled from the spec: CHIP-8 microcode application (§4.2; the
applying code of cpu/chip8/mod.rs is not under src/).  PushStack stores at
stack[SP] and then increments SP; PopStack decrements SP; the PC write
wraps at the 16-bit register width. -/
def applyChip8Microcode (s : Chip8State) (m : C8Microcode) : Chip8State :=
  match m with
  | .pushStack v =>
      { s with
        stack := fun j => if j = s.sp then v % 65536 else s.stack j
        sp := (s.sp + 1) % 256 }
  | .popStack _ => { s with sp := (s.sp + 255) % 256 }
  | .write16PC v => { s with pc := v % 65536 }

/-- Modelled from the spec: one CHIP-8 step applies the generated
microcode in order and then advances PC by 2 (§4.5, §4.6). -/
def chip8Step (s : Chip8State) (mcs : List C8Microcode) : Chip8State :=
  let s1 := mcs.foldl applyChip8Microcode s
  { s1 with pc := (s1.pc + 2) % 65536 }

/-- The RET generator from cpu/chip8/operations/mod.rs: it reads
`stack[sp]` at the current stack pointer (no decrement before the read) and
emits a pop followed by a PC write of that value minus 2. -/
def retGenerate (s : Chip8State) : List C8Microcode :=
  [C8Microcode.popStack (s.stack s.sp),
   C8Microcode.write16PC ((s.stack s.sp + (65536 - 2)) % 65536)]

/-- The CALL generator from cpu/chip8/operations/mod.rs: push the current
PC, then write PC to the target minus 2. -/
def callGenerate (s : Chip8State) (nnn : Nat) : List C8Microcode :=
  [C8Microcode.pushStack s.pc,
   C8Microcode.write16PC ((nnn % 4096 + (65536 - 2)) % 65536)]

/-!  AddressMap (address_map/mod.rs). -/

/-- Modelled from the spec: a plain memory device is a total byte store
(address_map/memory.rs is not under src/; §3 describes it as a fixed-size
byte array whose writes succeed). -/
def Device : Type := Nat → Nat

/-- The address map as its registered half-open intervals with their
devices, in registration order. -/
def AddressMap : Type := List ((Nat × Nat) × Device)

/-- `Range::contains` for a half-open interval: start ≤ p < end. -/
def rangeContains (r : Nat × Nat) (p : Nat) : Bool :=
  decide (r.1 ≤ p) && decide (p < r.2)

/-- `AddressMap::read`: the byte of the first registered interval
containing the address, or zero when none does. -/
def AddressMap.read : AddressMap → Nat → Nat
  | [], _ => 0
  | (r, d) :: rest, a =>
      if rangeContains r a then d a else AddressMap.read rest a

/-- `AddressMap::write`: route to the first containing interval and store
the byte in its device, or fail (none) when the address is unallocated. -/
def AddressMap.write : AddressMap → Nat → Nat → Option AddressMap
  | [], _, _ => none
  | (r, d) :: rest, a, v =>
      if rangeContains r a then
        some ((r, fun j => if j = a then v else d j) :: rest)
      else
        (AddressMap.write rest a v).map (fun m => (r, d) :: m)

/-- Whether some registered interval contains the address. -/
def AddressMap.inSomeRange (m : AddressMap) (a : Nat) : Bool :=
  m.any (fun e => rangeContains e.1 a)

/-- Intersection of two half-open intervals. -/
def rangesOverlap (r1 r2 : Nat × Nat) : Bool :=
  decide (r1.1 < r2.2) && decide (r2.1 < r1.2)

/-- Pairwise disjointness of the registered intervals of a map. -/
def AddressMap.disjoint : AddressMap → Bool
  | [] => true
  | (r, _) :: rest =>
      rest.all (fun e => !rangesOverlap r e.1) && AddressMap.disjoint rest

/-- The overlap guard of `AddressMap::register`: every existing key must
contain neither the start nor the end point of the incoming range. -/
def registerGuard (m : AddressMap) (r : Nat × Nat) : Bool :=
  m.all (fun e => !(rangeContains e.1 r.1 || rangeContains e.1 r.2))

/-- `AddressMap::register`: insert the range and its device when the guard
passes, otherwise fail with the overlap error (none). -/
def AddressMap.register (m : AddressMap) (r : Nat × Nat) (d : Device) :
    Option AddressMap :=
  if registerGuard m r then some ((r, d) :: m) else none

/-!  Theorems settling the claims. -/

/-- Claim C1.  The claim states that after ADC the Overflow flag equals
`((a ^ r) & (b ^ r) & 0x80) != 0` with `r = (a + b + c) mod 256`.  The code
disagrees already at a = 0x50, b = 0x50, c = 0 (the spec's own scenario 1,
which expects V = 1): the generator's overflow comes out false because
`twos_complement_add` tests the incoming carry flag where the law tests the
sign of the result. -/
theorem adc_overflow_flag_diverges_from_law :
    (runAdcImmediate { acc := 0x50 } 0x50).flags.overflow = false
      ∧ adcOverflowLaw 0x50 0x50 false = true := by
  decide

/-- Claim C2.  The claim states that ADC leaves `(a + b + c) mod 256` in
the accumulator and sets Carry iff `a + b + c ≥ 256`.  At a = 0xFF,
b = 0x00, c = 1 the code keeps the accumulator at 0xFF with Carry clear,
because `twos_complement_add` never adds the incoming carry, while the
claimed result is 0 with Carry set. -/
theorem adc_sum_and_carry_ignore_carry_in :
    (runAdcImmediate { acc := 0xFF, flags := { carry := true } } 0x00).acc = 0xFF
      ∧ (runAdcImmediate { acc := 0xFF, flags := { carry := true } } 0x00).flags.carry
          = false
      ∧ (0xFF + 0x00 + 1) % 256 = 0
      ∧ 256 ≤ 0xFF + 0x00 + 1 := by
  decide

/-- Claim C3.  The claim states that every pattern of the spec's table
decodes, in particular Cxkk to RND, 4xkk to SNE immediate, 9xy0 to SNE
VxVy, 8xy5 to SUB and Fx33 to the BCD store.  The OpcodeVariantParser
alternation has no arm for any of them, so all five fail to decode, and the
Fx18 word (the mask the source gave its BCD arm) is taken first by the
sound-timer load. -/
theorem chip8_decode_missing_rnd_sne_sub_bcd :
    chip8Decode 0xC0 0x12 = none
      ∧ chip8Decode 0x40 0x12 = none
      ∧ chip8Decode 0x90 0x10 = none
      ∧ chip8Decode 0x80 0x15 = none
      ∧ chip8Decode 0xF0 0x33 = none
      ∧ chip8Decode 0xF0 0x18 = some (Chip8Op.ldSt 0) := by
  decide

/-- Claim C4.  The claim states that CMP sets Carry iff lhs ≥ rhs as
unsigned bytes, including when exactly one of the two is zero.  With
accumulator 0x00 compared against 0x01 the code sets Carry, because the
derived Operand order ranks the zero flag before the value, even though
0 ≥ 1 is false. -/
theorem cmp_carry_flag_wrong_when_lhs_zero :
    (runCmpImmediate { acc := 0x00 } 0x01).flags.carry = true
      ∧ ¬ (0x01 ≤ 0x00) := by
  decide

/-- Claim C5.  The claim states that register fails exactly when the new
range intersects an existing interval, including when the new range
strictly contains one.  Registering 0..30 over an existing 10..20
succeeds, because the guard only asks whether an existing key contains the
new start or end point. -/
theorem register_accepts_strictly_containing_range :
    (AddressMap.register [((10, 20), fun _ => 0)] (0, 30) (fun _ => 0)).isSome
        = true
      ∧ rangesOverlap (0, 30) (10, 20) = true := by
  constructor
  · rfl
  · decide

/-- Claim C6.  The claim states a taken branch lands on
`(PC_after_opcode + signed_offset) mod 2^16`, so BCS +16 from PC = 0x00F0
with carry set should land on 0x0102 at 4 cycles.  The code adds the offset
to the opcode address itself and lands on 0x0100 (still at 4 cycles since
the page differs); the not-taken step does cost 2 cycles and leaves PC at
0x00F2. -/
theorem bcs_taken_lands_short_of_spec_target :
    (runBcsRelative { pc := 0x00F0, flags := { carry := true } } 0x10).1.pc
        = 0x0100
      ∧ (runBcsRelative { pc := 0x00F0, flags := { carry := true } } 0x10).2 = 4
      ∧ (0x00F0 + 2 + 0x10) % 65536 = 0x0102
      ∧ (runBcsRelative { pc := 0x00F0 } 0x10).1.pc = 0x00F2
      ∧ (runBcsRelative { pc := 0x00F0 } 0x10).2 = 2 := by
  decide

/-- Claim C7.  The claim states that the RET generator reads the return
address at index SP−1 so that CALL followed by RET restores the pushed PC.
From PC = 0x0200, SP = 0 and a zeroed stack, CALL 0x300 pushes 0x0200 at
stack[0] and leaves SP = 1, but the RET generator reads stack[SP] =
stack[1] = 0, so the step after RET ends at PC = 0, not 0x0200. -/
theorem call_ret_does_not_restore_pushed_pc :
    (chip8Step { pc := 0x0200 } (callGenerate { pc := 0x0200 } 0x300)).stack 0
        = 0x0200
      ∧ (chip8Step { pc := 0x0200 } (callGenerate { pc := 0x0200 } 0x300)).sp = 1
      ∧ (chip8Step { pc := 0x0200 } (callGenerate { pc := 0x0200 } 0x300)).pc
          = 0x0300
      ∧ (chip8Step (chip8Step { pc := 0x0200 } (callGenerate { pc := 0x0200 } 0x300))
            (retGenerate
              (chip8Step { pc := 0x0200 } (callGenerate { pc := 0x0200 } 0x300)))).pc
          = 0x0000
      ∧ (0x0000 : Nat) ≠ 0x0200 := by
  refine ⟨rfl, rfl, rfl, rfl, by decide⟩

/-- Claim C8.  The claim states that IndirectYIndexed resolution is total
and wraps: EA = (pointer + Y) mod 2^16 even when pointer + Y exceeds
0xFFFF.  With both zero-page bytes 0xFF the pointer is 0xFFFF, and the
code's unchecked u16 addition of Y = 1 overflows instead of wrapping to
0x0000 as the spec law does. -/
theorem indirect_y_indexed_add_overflows :
    dereferenceIndirectIndexedAddress (fun _ => 0xFF) 0x40 0x01 = none
      ∧ indirectYIndexedSpecEA (fun _ => 0xFF) 0x40 0x01 = 0x0000 := by
  constructor
  · rfl
  · rfl

/-- Claim C9.  For an address map with pairwise non-overlapping registered
ranges, writing a byte at an address inside some range succeeds and a
subsequent read at that address returns the byte, while at an address
outside every range the write fails and the read returns zero.  (Both read
and write route to the first containing interval in registration order, so
the roundtrip holds as stated; the disjointness hypothesis mirrors the
claim.) -/
theorem address_map_write_read_roundtrip (m : AddressMap) (a b : Nat)
    (_hdisj : AddressMap.disjoint m = true) :
    (AddressMap.inSomeRange m a = true →
      ∃ m2, AddressMap.write m a b = some m2 ∧ AddressMap.read m2 a = b)
      ∧ (AddressMap.inSomeRange m a = false →
          AddressMap.write m a b = none ∧ AddressMap.read m a = 0) := by
  clear _hdisj
  induction m with
  | nil =>
      refine ⟨fun h => by simp [AddressMap.inSomeRange] at h, fun _ => ⟨rfl, rfl⟩⟩
  | cons hd tl ih =>
      obtain ⟨r, d⟩ := hd
      by_cases hc : rangeContains r a = true
      · refine ⟨fun _ => ?_, fun h => ?_⟩
        · refine ⟨(r, fun j => if j = a then b else d j) :: tl, ?_, ?_⟩
          · simp [AddressMap.write, hc]
          · simp [AddressMap.read, hc]
        · exfalso
          simp [AddressMap.inSomeRange, hc] at h
      · have hmem : AddressMap.inSomeRange ((r, d) :: tl) a
            = AddressMap.inSomeRange tl a := by
          simp [AddressMap.inSomeRange, hc]
        refine ⟨fun h => ?_, fun h => ?_⟩
        · rw [hmem] at h
          obtain ⟨m2, hw, hr⟩ := ih.1 h
          refine ⟨(r, d) :: m2, ?_, ?_⟩
          · simp [AddressMap.write, hc, hw]
          · simp [AddressMap.read, hc, hr]
        · rw [hmem] at h
          obtain ⟨hw, hr⟩ := ih.2 h
          constructor
          · simp [AddressMap.write, hc, hw]
          · simp [AddressMap.read, hc, hr]

/-- Witness for claim C9: a concrete one-range map, an address inside the
range and one outside it. -/
theorem address_map_write_read_roundtrip_witness :
    (∃ m2, AddressMap.write [((0, 16), fun _ => 0)] 5 0x42 = some m2
        ∧ AddressMap.read m2 5 = 0x42)
      ∧ (AddressMap.write [((0, 16), fun _ => 0)] 77 0x42 = none
          ∧ AddressMap.read [((0, 16), fun _ => 0)] 77 = 0) :=
  ⟨(address_map_write_read_roundtrip [((0, 16), fun _ => 0)] 5 0x42
      (by decide)).1 (by decide),
   (address_map_write_read_roundtrip [((0, 16), fun _ => 0)] 77 0x42
      (by decide)).2 (by decide)⟩
